import Mathlib

/-!
Verification development for the expense-tracker idempotency subsystem and
money codec.

The definitions below are a shallow embedding of the TypeScript sources:

* `idempotencyMiddleware` (backend middleware, the idempotency guard),
* `validateAmount`, `parseAmount`, `formatAmount` (backend money utilities),
* `validateCreateExpense` (backend validation middleware),
* `generateIdempotencyKey` (frontend idempotency key generator).

Modelling conventions:

* Timestamps are natural numbers (epoch milliseconds).  Each request is
  processed at a single instant `now`; the source reads the clock a few
  milliseconds apart inside one request, which is collapsed to one instant.
* Monetary values are exact cents (`Nat`).  For every string matching the
  accepted amount format `^\d+(\.\d{1,2})?$` the JavaScript `parseFloat`
  comparisons performed by the source (`<= 0`, `> 9999999999.99`,
  `> 10000000`) agree with exact comparisons on the cent value, because the
  granularity of two-decimal values (0.01) is far larger than the rounding
  error of an IEEE double at these magnitudes; so the embedding compares
  cent values directly.
* The idempotency store is a list of records; the database unique index on
  `key` is reflected by a `Nodup` hypothesis on the stored keys where a
  theorem needs it, and a `create` that fails (and is swallowed) when the
  key is already present.
* JSON response bodies are either a structured error object
  (`{error, message}` as produced by the middleware) or an opaque payload
  of type `β` produced by the protected operation.
-/

/-- Response body: either the middleware error object or an opaque payload. -/
inductive RespB (β : Type) where
  | errObj (error message : String)
  | payload (body : β)
deriving DecidableEq

/-- A row of the `idempotency_store` table (`key` unique, `response` JSONB,
`createdAt`, `expiresAt`). -/
structure IdempotencyRecord (β : Type) where
  key : String
  response : RespB β
  createdAt : Nat
  expiresAt : Nat
deriving DecidableEq

/-- A durable write performed on the idempotency store. -/
inductive WriteOp (β : Type) where
  | insert (r : IdempotencyRecord β)
  | deleteKey (k : String)
deriving DecidableEq

/-- Observable outcome of one guarded request: HTTP status, JSON body,
whether the protected operation ran, the resulting store, and the list of
durable store writes that succeeded. -/
structure GuardOut (β : Type) where
  status : Nat
  body : RespB β
  opCalled : Bool
  store : List (IdempotencyRecord β)
  log : List (WriteOp β)
deriving DecidableEq

/-- Splits a character list on a separator character; mirrors how the
anchored regular expressions of the source decompose into fixed groups
separated by a literal character. -/
def splitOnC (sep : Char) : List Char → List (List Char)
  | [] => [[]]
  | c :: cs =>
    if c = sep then [] :: splitOnC sep cs
    else
      match splitOnC sep cs with
      | g :: gs => (c :: g) :: gs
      | [] => [[c]]

/-- Hexadecimal digit, case-insensitive (the source regex carries the `i`
flag). -/
def isHexDigit (c : Char) : Bool :=
  (('0' ≤ c) && (c ≤ '9')) || (('a' ≤ c) && (c ≤ 'f')) || (('A' ≤ c) && (c ≤ 'F'))

/-- Model of the guard's key check
`/^[0-9a-f]{8}-[0-9a-f]{4}-[0-9a-f]{4}-[0-9a-f]{4}-[0-9a-f]{12}$/i`:
five dash-separated groups of hexadecimal characters with lengths
8-4-4-4-12.  Hexadecimal characters are never a dash, so the grouped form
of the anchored regex is exactly this split. -/
def isUuid (s : String) : Bool :=
  match splitOnC '-' s.data with
  | [g1, g2, g3, g4, g5] =>
    g1.length = 8 && g2.length = 4 && g3.length = 4 && g4.length = 4 &&
      g5.length = 12 && (g1 ++ g2 ++ g3 ++ g4 ++ g5).all isHexDigit
  | _ => false

/-- The 24-hour TTL the middleware adds to the current time
(`expiresAt.setHours(expiresAt.getHours() + 24)`), in milliseconds. -/
def ttlMs : Nat := 24 * 60 * 60 * 1000

/-- Model of `prisma.idempotencyStore.findUnique({ where: { key } })`. -/
def findRecord {β : Type} (store : List (IdempotencyRecord β)) (key : String) :
    Option (IdempotencyRecord β) :=
  store.find? (fun r => r.key == key)

/-- Models the tail of the middleware after the patched `res.json` fires:
the downstream handler produced `(op.1, op.2)`; when the status is 2xx a
record insert is attempted, and a duplicate-key failure (the unique index
already holds the key) is swallowed by the `.catch`.  The response returned
to the caller never depends on the insert outcome. -/
def respondAndCache {β : Type} (now : Nat) (key : String) (op : Nat × RespB β)
    (store : List (IdempotencyRecord β)) (log₀ : List (WriteOp β)) : GuardOut β :=
  if 200 ≤ op.1 ∧ op.1 < 300 then
    match findRecord store key with
    | some _ =>
      { status := op.1, body := op.2, opCalled := true, store := store, log := log₀ }
    | none =>
      let r : IdempotencyRecord β :=
        { key := key, response := op.2, createdAt := now, expiresAt := now + ttlMs }
      { status := op.1, body := op.2, opCalled := true,
        store := store ++ [r], log := log₀ ++ [WriteOp.insert r] }
  else { status := op.1, body := op.2, opCalled := true, store := store, log := log₀ }

/-- Rejection emitted when the `Idempotency-Key` header is absent (or the
empty string, which is falsy in JavaScript). -/
def missingKeyOut {β : Type} (store : List (IdempotencyRecord β)) : GuardOut β :=
  { status := 400,
    body := RespB.errObj "Bad Request" "Idempotency-Key header is required for POST requests",
    opCalled := false, store := store, log := [] }

/-- Rejection emitted when the key does not match the UUID regex. -/
def invalidKeyOut {β : Type} (store : List (IdempotencyRecord β)) : GuardOut β :=
  { status := 400,
    body := RespB.errObj "Bad Request" "Idempotency-Key must be a valid UUID",
    opCalled := false, store := store, log := [] }

/-- Shallow embedding of `idempotencyMiddleware` for a POST request: key
presence and format checks, lookup, lazy expiry (`new Date() > expiresAt`
deletes and proceeds as new), replay of a live cached response with 200,
and otherwise the downstream operation `op` followed by `respondAndCache`. -/
def idempotencyMiddleware {β : Type} (now : Nat) (keyHdr : Option String)
    (op : Nat × RespB β) (store : List (IdempotencyRecord β)) : GuardOut β :=
  match keyHdr with
  | none => missingKeyOut store
  | some key =>
    if key = "" then missingKeyOut store
    else if isUuid key then
      match findRecord store key with
      | some r =>
        if now > r.expiresAt then
          respondAndCache now key op (List.eraseP (fun x => x.key == key) store)
            [WriteOp.deleteKey key]
        else { status := 200, body := r.response, opCalled := false, store := store, log := [] }
      | none => respondAndCache now key op store []
    else invalidKeyOut store

/-- Durable inserts recorded in a write log. -/
def isInsert {β : Type} : WriteOp β → Bool
  | WriteOp.insert _ => true
  | WriteOp.deleteKey _ => false

/-- Number of record inserts in a write log. -/
def insertWrites {β : Type} (log : List (WriteOp β)) : Nat :=
  (log.filter isInsert).length

/-! Helper lemmas about `findRecord` and `List.eraseP` on the key column. -/

theorem findRecord_eq_none {β : Type} {store : List (IdempotencyRecord β)} {k : String}
    (h : ∀ r ∈ store, r.key ≠ k) : findRecord store k = none := by
  refine List.find?_eq_none.mpr ?_
  intro x hx
  simp [h x hx]

theorem findRecord_none_forall {β : Type} {store : List (IdempotencyRecord β)} {k : String}
    (h : findRecord store k = none) : ∀ r ∈ store, r.key ≠ k := by
  intro r hr
  have hp := List.find?_eq_none.mp h r hr
  simpa using hp

theorem findRecord_some_mem {β : Type} {store : List (IdempotencyRecord β)} {k : String}
    {r : IdempotencyRecord β} (h : findRecord store k = some r) : r ∈ store :=
  List.mem_of_find?_eq_some h

theorem findRecord_some_key {β : Type} {store : List (IdempotencyRecord β)} {k : String}
    {r : IdempotencyRecord β} (h : findRecord store k = some r) : r.key = k := by
  have hp := List.find?_some h
  simpa using hp

theorem findRecord_append_fresh {β : Type} (pre : List (IdempotencyRecord β))
    (fresh : IdempotencyRecord β) (k : String)
    (h : ∀ x ∈ pre, x.key ≠ k) (hf : fresh.key = k) :
    findRecord (pre ++ [fresh]) k = some fresh := by
  induction pre with
  | nil =>
    simp [findRecord, List.find?_cons, hf]
  | cons a l ih =>
    have ha : a.key ≠ k := h a (List.mem_cons_self a l)
    have step : findRecord ((a :: l) ++ [fresh]) k = findRecord (l ++ [fresh]) k := by
      simp only [findRecord, List.cons_append]
      exact List.find?_cons_of_neg _ (by simp [ha])
    rw [step]
    exact ih (fun x hx => h x (List.mem_cons_of_mem a hx))

theorem erasePKey_no_key {β : Type} {store : List (IdempotencyRecord β)} {k : String}
    (hnd : (store.map (fun r => r.key)).Nodup) :
    ∀ x ∈ List.eraseP (fun r => r.key == k) store, x.key ≠ k := by
  induction store with
  | nil => intro x hx; cases hx
  | cons a l ih =>
    by_cases ha : a.key = k
    · rw [List.eraseP_cons_of_pos (by simpa using ha)]
      intro x hx hxk
      have hdup : a.key ∈ l.map (fun r => r.key) := by
        rw [ha, ← hxk]
        exact List.mem_map_of_mem _ hx
      exact (List.nodup_cons.mp hnd).1 hdup
    · rw [List.eraseP_cons_of_neg (by simpa using ha)]
      intro x hx
      rcases List.mem_cons.mp hx with h1 | h1
      · rw [h1]; exact ha
      · exact ih (List.nodup_cons.mp hnd).2 x h1

theorem mem_of_mem_erasePKey {β : Type} {store : List (IdempotencyRecord β)}
    {p : IdempotencyRecord β → Bool} {x : IdempotencyRecord β}
    (hx : x ∈ List.eraseP p store) : x ∈ store :=
  List.mem_of_mem_eraseP hx

/-- C2: a request whose idempotency key is absent (or the empty string,
which is falsy) is rejected with status 400 and the key-required message,
and a nonempty key failing the UUID regex is rejected with status 400 and
the valid-UUID message; in both cases the protected operation is not
invoked, the store is unchanged, and no durable write happens. -/
theorem guard_rejects_bad_key {β : Type} (now : Nat) (op : Nat × RespB β)
    (store : List (IdempotencyRecord β)) :
    (idempotencyMiddleware now none op store =
      { status := 400,
        body := RespB.errObj "Bad Request"
          "Idempotency-Key header is required for POST requests",
        opCalled := false, store := store, log := [] }) ∧
    (idempotencyMiddleware now (some "") op store =
      { status := 400,
        body := RespB.errObj "Bad Request"
          "Idempotency-Key header is required for POST requests",
        opCalled := false, store := store, log := [] }) ∧
    (∀ k : String, k ≠ "" → isUuid k = false →
      idempotencyMiddleware now (some k) op store =
        { status := 400,
          body := RespB.errObj "Bad Request" "Idempotency-Key must be a valid UUID",
          opCalled := false, store := store, log := [] }) := by
  refine ⟨rfl, rfl, ?_⟩
  intro k hne huuid
  simp [idempotencyMiddleware, hne, huuid, invalidKeyOut]

/-- Witness for C2 at concrete inputs. -/
theorem guard_rejects_bad_key_witness :
    idempotencyMiddleware 0 (some "not-a-uuid") (201, RespB.payload "x")
        ([] : List (IdempotencyRecord String)) =
      { status := 400,
        body := RespB.errObj "Bad Request" "Idempotency-Key must be a valid UUID",
        opCalled := false, store := [], log := [] } :=
  (guard_rejects_bad_key 0 (201, RespB.payload "x") []).2.2 "not-a-uuid"
    (by decide) (by decide)

/-- C8: when the record insert hits a key already present in the store
(the unique index — a lost race), the failure is swallowed: the store stays
unchanged, no error is surfaced, and the response already computed for the
caller is returned as is; moreover the response never depends on the store
state at insert time at all. -/
theorem cache_insert_duplicate_swallowed {β : Type} (now : Nat) (k : String)
    (op : Nat × RespB β) (log₀ : List (WriteOp β)) :
    (∀ store, (findRecord store k).isSome = true →
      respondAndCache now k op store log₀ =
        { status := op.1, body := op.2, opCalled := true, store := store, log := log₀ }) ∧
    (∀ store, (respondAndCache now k op store log₀).status = op.1 ∧
      (respondAndCache now k op store log₀).body = op.2) := by
  constructor
  · intro store h
    unfold respondAndCache
    split
    · cases hf : findRecord store k with
      | some r => simp [hf]
      | none => rw [hf] at h; cases h
    · rfl
  · intro store
    unfold respondAndCache
    split
    · cases hf : findRecord store k with
      | some r => simp [hf]
      | none => simp [hf]
    · exact ⟨rfl, rfl⟩

/-- Witness for C8 at concrete inputs. -/
theorem cache_insert_duplicate_swallowed_witness :
    respondAndCache 5 "k1" (201, RespB.payload "fresh")
        [{ key := "k1", response := RespB.payload "cached", createdAt := 0,
           expiresAt := 10 }] [] =
      { status := 201, body := RespB.payload "fresh", opCalled := true,
        store := [{ key := "k1", response := RespB.payload "cached", createdAt := 0,
                    expiresAt := 10 }], log := [] } :=
  (cache_insert_duplicate_swallowed 5 "k1" (201, RespB.payload "fresh") []).1
    [{ key := "k1", response := RespB.payload "cached", createdAt := 0, expiresAt := 10 }]
    (by decide)

/-! Branch characterizations of the guard. -/

theorem respondAndCache_insert {β : Type} (now : Nat) (k : String) (op : Nat × RespB β)
    (pre : List (IdempotencyRecord β)) (log₀ : List (WriteOp β))
    (hfree : ∀ x ∈ pre, x.key ≠ k) (h2 : 200 ≤ op.1 ∧ op.1 < 300) :
    respondAndCache now k op pre log₀ =
      { status := op.1, body := op.2, opCalled := true,
        store := pre ++
          [{ key := k, response := op.2, createdAt := now, expiresAt := now + ttlMs }],
        log := log₀ ++
          [WriteOp.insert
            { key := k, response := op.2, createdAt := now, expiresAt := now + ttlMs }] } := by
  have hf : findRecord pre k = none := findRecord_eq_none hfree
  simp [respondAndCache, hf, h2]

theorem respondAndCache_nonsuccess {β : Type} (now : Nat) (k : String) (op : Nat × RespB β)
    (pre : List (IdempotencyRecord β)) (log₀ : List (WriteOp β))
    (h2 : ¬ (200 ≤ op.1 ∧ op.1 < 300)) :
    respondAndCache now k op pre log₀ =
      { status := op.1, body := op.2, opCalled := true, store := pre, log := log₀ } := by
  simp [respondAndCache, h2]

theorem respondAndCache_opCalled {β : Type} (now : Nat) (k : String) (op : Nat × RespB β)
    (pre : List (IdempotencyRecord β)) (log₀ : List (WriteOp β)) :
    (respondAndCache now k op pre log₀).opCalled = true := by
  unfold respondAndCache
  split
  · cases findRecord pre k <;> rfl
  · rfl

theorem guard_lookup_none {β : Type} (now : Nat) (k : String) (op : Nat × RespB β)
    (store : List (IdempotencyRecord β)) (hne : k ≠ "") (hk : isUuid k = true)
    (hf : findRecord store k = none) :
    idempotencyMiddleware now (some k) op store = respondAndCache now k op store [] := by
  simp [idempotencyMiddleware, hne, hk, hf]

theorem guard_lookup_expired {β : Type} (now : Nat) (k : String) (op : Nat × RespB β)
    (store : List (IdempotencyRecord β)) {r : IdempotencyRecord β}
    (hne : k ≠ "") (hk : isUuid k = true)
    (hf : findRecord store k = some r) (hexp : now > r.expiresAt) :
    idempotencyMiddleware now (some k) op store =
      respondAndCache now k op (List.eraseP (fun x => x.key == k) store)
        [WriteOp.deleteKey k] := by
  simp [idempotencyMiddleware, hne, hk, hf, hexp]

theorem guard_lookup_live {β : Type} (now : Nat) (k : String) (op : Nat × RespB β)
    (store : List (IdempotencyRecord β)) {r : IdempotencyRecord β}
    (hne : k ≠ "") (hk : isUuid k = true)
    (hf : findRecord store k = some r) (hlive : ¬ now > r.expiresAt) :
    idempotencyMiddleware now (some k) op store =
      { status := 200, body := r.response, opCalled := false, store := store, log := [] } := by
  simp [idempotencyMiddleware, hne, hk, hf, hlive]

/-- A valid key with no live record runs the operation and, on a 2xx
outcome, appends a fresh record; the untouched part of the store carries no
record for the key. -/
theorem guard_no_live_run {β : Type} (now : Nat) (k : String) (op : Nat × RespB β)
    (store : List (IdempotencyRecord β))
    (hne : k ≠ "") (hk : isUuid k = true)
    (hnd : (store.map (fun r => r.key)).Nodup)
    (hnl : ∀ r ∈ store, r.key = k → now > r.expiresAt)
    (h2 : 200 ≤ op.1 ∧ op.1 < 300) :
    ∃ (pre : List (IdempotencyRecord β)) (log₁ : List (WriteOp β)),
      (∀ x ∈ pre, x.key ≠ k) ∧ (∀ x ∈ pre, x ∈ store) ∧
      (log₁ = [] ∨ log₁ = [WriteOp.deleteKey k]) ∧
      idempotencyMiddleware now (some k) op store =
        { status := op.1, body := op.2, opCalled := true,
          store := pre ++
            [{ key := k, response := op.2, createdAt := now, expiresAt := now + ttlMs }],
          log := log₁ ++
            [WriteOp.insert
              { key := k, response := op.2, createdAt := now, expiresAt := now + ttlMs }] } := by
  cases hf : findRecord store k with
  | none =>
    refine ⟨store, [], findRecord_none_forall hf, fun x hx => hx, Or.inl rfl, ?_⟩
    rw [guard_lookup_none now k op store hne hk hf,
      respondAndCache_insert now k op store [] (findRecord_none_forall hf) h2]
  | some r =>
    have hexp := hnl r (findRecord_some_mem hf) (findRecord_some_key hf)
    refine ⟨List.eraseP (fun x => x.key == k) store, [WriteOp.deleteKey k],
      erasePKey_no_key hnd, fun x hx => mem_of_mem_erasePKey hx, Or.inr rfl, ?_⟩
    rw [guard_lookup_expired now k op store hne hk hf hexp,
      respondAndCache_insert now k op _ _ (erasePKey_no_key hnd) h2]

/-- C1: for a canonical-UUID key with no live record (store keys unique per
the database index), a first call whose protected operation succeeds with
201 returns 201 with the operation body and runs the operation; a second
call with the same key within 24 hours returns 200, an identical body, does
not run the operation, performs no store write, and leaves the store as it
was after the first call. -/
theorem guard_first_create_then_replay {β : Type} (now₁ now₂ : Nat) (k : String)
    (op op₂ : Nat × RespB β) (store : List (IdempotencyRecord β))
    (hne : k ≠ "") (hk : isUuid k = true)
    (hnd : (store.map (fun r => r.key)).Nodup)
    (hnl : ∀ r ∈ store, r.key = k → now₁ > r.expiresAt)
    (h201 : op.1 = 201)
    (hwin : now₂ ≤ now₁ + ttlMs) :
    (idempotencyMiddleware now₁ (some k) op store).status = 201 ∧
    (idempotencyMiddleware now₁ (some k) op store).body = op.2 ∧
    (idempotencyMiddleware now₁ (some k) op store).opCalled = true ∧
    (idempotencyMiddleware now₂ (some k) op₂
      (idempotencyMiddleware now₁ (some k) op store).store).status = 200 ∧
    (idempotencyMiddleware now₂ (some k) op₂
      (idempotencyMiddleware now₁ (some k) op store).store).body = op.2 ∧
    (idempotencyMiddleware now₂ (some k) op₂
      (idempotencyMiddleware now₁ (some k) op store).store).opCalled = false ∧
    (idempotencyMiddleware now₂ (some k) op₂
      (idempotencyMiddleware now₁ (some k) op store).store).log = [] ∧
    (idempotencyMiddleware now₂ (some k) op₂
      (idempotencyMiddleware now₁ (some k) op store).store).store =
      (idempotencyMiddleware now₁ (some k) op store).store := by
  have h2 : 200 ≤ op.1 ∧ op.1 < 300 := by omega
  obtain ⟨pre, log₁, hfree, _, _, heq⟩ :=
    guard_no_live_run now₁ k op store hne hk hnd hnl h2
  have hfind₂ : findRecord
      (pre ++ [{ key := k, response := op.2, createdAt := now₁, expiresAt := now₁ + ttlMs }]) k =
      some { key := k, response := op.2, createdAt := now₁, expiresAt := now₁ + ttlMs } :=
    findRecord_append_fresh pre _ k hfree rfl
  have hlive : ¬ now₂ >
      ({ key := k, response := op.2, createdAt := now₁,
         expiresAt := now₁ + ttlMs } : IdempotencyRecord β).expiresAt := by
    simp only []
    omega
  have heq₂ := guard_lookup_live now₂ k op₂ _ hne hk hfind₂ hlive
  rw [heq]
  simp only [] at heq₂ ⊢
  rw [heq₂]
  simp [h201]

/-- Witness for C1 at concrete inputs. -/
theorem guard_first_create_then_replay_witness :
    (idempotencyMiddleware 0 (some "11111111-1111-4111-8111-111111111111")
      (201, RespB.payload "expense")
      ([] : List (IdempotencyRecord String))).status = 201 ∧
    (idempotencyMiddleware 0 (some "11111111-1111-4111-8111-111111111111")
      (201, RespB.payload "expense") []).body = RespB.payload "expense" ∧
    (idempotencyMiddleware 0 (some "11111111-1111-4111-8111-111111111111")
      (201, RespB.payload "expense") []).opCalled = true ∧
    (idempotencyMiddleware 1000 (some "11111111-1111-4111-8111-111111111111")
      (201, RespB.payload "other")
      (idempotencyMiddleware 0 (some "11111111-1111-4111-8111-111111111111")
        (201, RespB.payload "expense") []).store).status = 200 ∧
    (idempotencyMiddleware 1000 (some "11111111-1111-4111-8111-111111111111")
      (201, RespB.payload "other")
      (idempotencyMiddleware 0 (some "11111111-1111-4111-8111-111111111111")
        (201, RespB.payload "expense") []).store).body = RespB.payload "expense" ∧
    (idempotencyMiddleware 1000 (some "11111111-1111-4111-8111-111111111111")
      (201, RespB.payload "other")
      (idempotencyMiddleware 0 (some "11111111-1111-4111-8111-111111111111")
        (201, RespB.payload "expense") []).store).opCalled = false ∧
    (idempotencyMiddleware 1000 (some "11111111-1111-4111-8111-111111111111")
      (201, RespB.payload "other")
      (idempotencyMiddleware 0 (some "11111111-1111-4111-8111-111111111111")
        (201, RespB.payload "expense") []).store).log = [] ∧
    (idempotencyMiddleware 1000 (some "11111111-1111-4111-8111-111111111111")
      (201, RespB.payload "other")
      (idempotencyMiddleware 0 (some "11111111-1111-4111-8111-111111111111")
        (201, RespB.payload "expense") []).store).store =
      (idempotencyMiddleware 0 (some "11111111-1111-4111-8111-111111111111")
        (201, RespB.payload "expense") []).store :=
  guard_first_create_then_replay 0 1000 "11111111-1111-4111-8111-111111111111"
    (201, RespB.payload "expense") (201, RespB.payload "other") []
    (by decide) (by decide) List.nodup_nil
    (fun r hr => absurd hr (List.not_mem_nil r)) rfl (by decide)

theorem insertWrites_append {β : Type} (l₁ l₂ : List (WriteOp β)) :
    insertWrites (l₁ ++ l₂) = insertWrites l₁ + insertWrites l₂ := by
  simp [insertWrites, List.filter_append]

/-- C3: with a valid key and no live record, a failing protected operation
(non-2xx) propagates unchanged, performs no record insert, and leaves the
key without a record (retryable), while a successful one performs exactly
one record insert; a replayed live record performs zero durable writes of
any kind. -/
theorem guard_write_discipline {β : Type} (now : Nat) (k : String) (op : Nat × RespB β)
    (store : List (IdempotencyRecord β))
    (hne : k ≠ "") (hk : isUuid k = true)
    (hnd : (store.map (fun r => r.key)).Nodup) :
    ((∀ r ∈ store, r.key = k → now > r.expiresAt) →
      ((¬ (200 ≤ op.1 ∧ op.1 < 300)) →
        (idempotencyMiddleware now (some k) op store).status = op.1 ∧
        (idempotencyMiddleware now (some k) op store).body = op.2 ∧
        insertWrites (idempotencyMiddleware now (some k) op store).log = 0 ∧
        findRecord (idempotencyMiddleware now (some k) op store).store k = none) ∧
      ((200 ≤ op.1 ∧ op.1 < 300) →
        insertWrites (idempotencyMiddleware now (some k) op store).log = 1)) ∧
    (∀ r, findRecord store k = some r → now ≤ r.expiresAt →
      (idempotencyMiddleware now (some k) op store).log = []) := by
  constructor
  · intro hnl
    constructor
    · intro h2
      cases hf : findRecord store k with
      | none =>
        rw [guard_lookup_none now k op store hne hk hf,
          respondAndCache_nonsuccess now k op store [] h2]
        exact ⟨rfl, rfl, rfl, hf⟩
      | some r =>
        have hexp := hnl r (findRecord_some_mem hf) (findRecord_some_key hf)
        rw [guard_lookup_expired now k op store hne hk hf hexp,
          respondAndCache_nonsuccess now k op _ _ h2]
        exact ⟨rfl, rfl, rfl, findRecord_eq_none (erasePKey_no_key hnd)⟩
    · intro h2
      obtain ⟨pre, log₁, _, _, hlog, heq⟩ :=
        guard_no_live_run now k op store hne hk hnd hnl h2
      rw [heq]
      have : insertWrites log₁ = 0 := by
        rcases hlog with h | h <;> rw [h] <;> rfl
      simp only [insertWrites_append, this]
      rfl
  · intro r hf hliv
    rw [guard_lookup_live now k op store hne hk hf (by omega)]

/-- Witness for C3 at concrete inputs (failing operation on a fresh key). -/
theorem guard_write_discipline_witness :
    (idempotencyMiddleware 0 (some "11111111-1111-4111-8111-111111111111")
      (500, RespB.errObj "Internal Server Error" "boom")
      ([] : List (IdempotencyRecord String))).status = 500 ∧
    (idempotencyMiddleware 0 (some "11111111-1111-4111-8111-111111111111")
      (500, RespB.errObj "Internal Server Error" "boom")
      ([] : List (IdempotencyRecord String))).body =
      RespB.errObj "Internal Server Error" "boom" ∧
    insertWrites (idempotencyMiddleware 0 (some "11111111-1111-4111-8111-111111111111")
      (500, RespB.errObj "Internal Server Error" "boom")
      ([] : List (IdempotencyRecord String))).log = 0 ∧
    findRecord (idempotencyMiddleware 0 (some "11111111-1111-4111-8111-111111111111")
      (500, RespB.errObj "Internal Server Error" "boom")
      ([] : List (IdempotencyRecord String))).store
      "11111111-1111-4111-8111-111111111111" = none :=
  ((guard_write_discipline 0 "11111111-1111-4111-8111-111111111111"
      (500, RespB.errObj "Internal Server Error" "boom") []
      (by decide) (by decide) List.nodup_nil).1
    (fun r hr => absurd hr (List.not_mem_nil r))).1 (by decide)

/-- C6: a record found expired (`now > expiresAt`) is treated as absent:
it is deleted, the protected operation runs again, and on a 2xx outcome a
second, independent record is created for the key. -/
theorem guard_expired_treated_as_new {β : Type} (now : Nat) (k : String)
    (op : Nat × RespB β) (store : List (IdempotencyRecord β)) (r : IdempotencyRecord β)
    (hne : k ≠ "") (hk : isUuid k = true)
    (hnd : (store.map (fun x => x.key)).Nodup)
    (hf : findRecord store k = some r) (hexp : now > r.expiresAt)
    (h2 : 200 ≤ op.1 ∧ op.1 < 300) :
    idempotencyMiddleware now (some k) op store =
      { status := op.1, body := op.2, opCalled := true,
        store := List.eraseP (fun x => x.key == k) store ++
          [{ key := k, response := op.2, createdAt := now, expiresAt := now + ttlMs }],
        log := [WriteOp.deleteKey k,
          WriteOp.insert
            { key := k, response := op.2, createdAt := now, expiresAt := now + ttlMs }] } := by
  rw [guard_lookup_expired now k op store hne hk hf hexp,
    respondAndCache_insert now k op _ _ (erasePKey_no_key hnd) h2]
  rfl

/-- Witness for C6 at concrete inputs (record expired at 10, call at 20). -/
theorem guard_expired_treated_as_new_witness :
    idempotencyMiddleware 20 (some "11111111-1111-4111-8111-111111111111")
      (201, RespB.payload "second")
      [{ key := "11111111-1111-4111-8111-111111111111",
         response := RespB.payload "first", createdAt := 0, expiresAt := 10 }] =
      { status := 201, body := RespB.payload "second", opCalled := true,
        store := [{ key := "11111111-1111-4111-8111-111111111111",
                    response := RespB.payload "second", createdAt := 20,
                    expiresAt := 20 + ttlMs }],
        log := [WriteOp.deleteKey "11111111-1111-4111-8111-111111111111",
          WriteOp.insert
            { key := "11111111-1111-4111-8111-111111111111",
              response := RespB.payload "second", createdAt := 20,
              expiresAt := 20 + ttlMs }] } := by
  have h := guard_expired_treated_as_new 20 "11111111-1111-4111-8111-111111111111"
    (201, RespB.payload "second")
    [{ key := "11111111-1111-4111-8111-111111111111",
       response := RespB.payload "first", createdAt := 0, expiresAt := 10 }]
    { key := "11111111-1111-4111-8111-111111111111",
      response := RespB.payload "first", createdAt := 0, expiresAt := 10 }
    (by decide) (by decide) (by decide) (by decide) (by decide) (by decide)
  rw [h]
  rfl

theorem respondAndCache_dup {β : Type} (now : Nat) (k : String) (op : Nat × RespB β)
    (pre : List (IdempotencyRecord β)) (log₀ : List (WriteOp β)) {r : IdempotencyRecord β}
    (hf : findRecord pre k = some r) :
    respondAndCache now k op pre log₀ =
      { status := op.1, body := op.2, opCalled := true, store := pre, log := log₀ } := by
  unfold respondAndCache
  split
  · simp [hf]
  · rfl

theorem respondAndCache_new {β : Type} (now : Nat) (k : String) (op : Nat × RespB β)
    (pre : List (IdempotencyRecord β)) (log₀ : List (WriteOp β))
    (hf : findRecord pre k = none) (h2 : 200 ≤ op.1 ∧ op.1 < 300) :
    respondAndCache now k op pre log₀ =
      { status := op.1, body := op.2, opCalled := true,
        store := pre ++
          [{ key := k, response := op.2, createdAt := now, expiresAt := now + ttlMs }],
        log := log₀ ++
          [WriteOp.insert
            { key := k, response := op.2, createdAt := now, expiresAt := now + ttlMs }] } := by
  simp [respondAndCache, hf, h2]

theorem respondAndCache_lifecycle {β : Type} (now : Nat) (k : String) (op : Nat × RespB β)
    (pre : List (IdempotencyRecord β)) (log₀ : List (WriteOp β)) :
    ((respondAndCache now k op pre log₀).opCalled = true) ∧
    (∀ rec, WriteOp.insert rec ∈ (respondAndCache now k op pre log₀).log →
      WriteOp.insert rec ∈ log₀ ∨
        ((200 ≤ op.1 ∧ op.1 < 300) ∧
          rec = { key := k, response := op.2, createdAt := now, expiresAt := now + ttlMs })) ∧
    (∀ rec ∈ (respondAndCache now k op pre log₀).store,
      rec ∈ pre ∨ WriteOp.insert rec ∈ (respondAndCache now k op pre log₀).log) := by
  by_cases h2 : 200 ≤ op.1 ∧ op.1 < 300
  · cases hf : findRecord pre k with
    | some r =>
      rw [respondAndCache_dup now k op pre log₀ hf]
      exact ⟨rfl, fun rec h => Or.inl h, fun rec hr => Or.inl hr⟩
    | none =>
      rw [respondAndCache_new now k op pre log₀ hf h2]
      refine ⟨rfl, ?_, ?_⟩
      · intro rec h
        rcases List.mem_append.mp h with h1 | h1
        · exact Or.inl h1
        · exact Or.inr ⟨h2, WriteOp.insert.inj (List.mem_singleton.mp h1)⟩
      · intro rec hr
        rcases List.mem_append.mp hr with h1 | h1
        · exact Or.inl h1
        · right
          rw [List.mem_singleton.mp h1]
          exact List.mem_append_right _ (List.mem_singleton.mpr rfl)
  · rw [respondAndCache_nonsuccess now k op pre log₀ h2]
    exact ⟨rfl, fun rec h => Or.inl h, fun rec hr => Or.inl hr⟩

/-- C7: every record the guard inserts is created only on a 2xx outcome of
the wrapped operation, carries exactly the success response body, has
`expiresAt = createdAt + 24h` with `createdAt` the processing instant and
the request key as its key; and no existing record is ever modified — every
record in the resulting store is either an untouched old record or the one
freshly logged insert. -/
theorem guard_record_lifecycle {β : Type} (now : Nat) (keyHdr : Option String)
    (op : Nat × RespB β) (store : List (IdempotencyRecord β)) :
    (∀ rec : IdempotencyRecord β,
      WriteOp.insert rec ∈ (idempotencyMiddleware now keyHdr op store).log →
        (idempotencyMiddleware now keyHdr op store).opCalled = true ∧
        (200 ≤ op.1 ∧ op.1 < 300) ∧
        rec.response = op.2 ∧ rec.createdAt = now ∧
        rec.expiresAt = rec.createdAt + ttlMs ∧ keyHdr = some rec.key) ∧
    (∀ rec ∈ (idempotencyMiddleware now keyHdr op store).store,
      rec ∈ store ∨ WriteOp.insert rec ∈ (idempotencyMiddleware now keyHdr op store).log) := by
  cases keyHdr with
  | none =>
    constructor
    · intro rec h
      simp [idempotencyMiddleware, missingKeyOut] at h
    · intro rec hr
      simp only [idempotencyMiddleware, missingKeyOut] at hr
      exact Or.inl hr
  | some key =>
    by_cases hke : key = ""
    · subst hke
      constructor
      · intro rec h
        simp [idempotencyMiddleware, missingKeyOut] at h
      · intro rec hr
        simp only [idempotencyMiddleware, if_pos rfl, missingKeyOut] at hr
        exact Or.inl hr
    · by_cases hk : isUuid key
      · cases hf : findRecord store key with
        | some r =>
          by_cases hexp : now > r.expiresAt
          · rw [guard_lookup_expired now key op store hke hk hf hexp]
            obtain ⟨hoc, hlog, hst⟩ := respondAndCache_lifecycle now key op
              (List.eraseP (fun x => x.key == key) store) [WriteOp.deleteKey key]
            constructor
            · intro rec h
              rcases hlog rec h with h1 | h1
              · simp at h1
              · obtain ⟨h2, hrec⟩ := h1
                subst hrec
                exact ⟨hoc, h2, rfl, rfl, rfl, rfl⟩
            · intro rec hr
              rcases hst rec hr with h1 | h1
              · exact Or.inl (mem_of_mem_erasePKey h1)
              · exact Or.inr h1
          · rw [guard_lookup_live now key op store hke hk hf hexp]
            constructor
            · intro rec h
              simp at h
            · intro rec hr
              simp only [] at hr
              exact Or.inl hr
        | none =>
          rw [guard_lookup_none now key op store hke hk hf]
          obtain ⟨hoc, hlog, hst⟩ := respondAndCache_lifecycle now key op store []
          constructor
          · intro rec h
            rcases hlog rec h with h1 | h1
            · simp at h1
            · obtain ⟨h2, hrec⟩ := h1
              subst hrec
              exact ⟨hoc, h2, rfl, rfl, rfl, rfl⟩
          · intro rec hr
            rcases hst rec hr with h1 | h1
            · exact Or.inl h1
            · exact Or.inr h1
      · constructor
        · intro rec h
          simp [idempotencyMiddleware, hke, hk, invalidKeyOut] at h
        · intro rec hr
          simp only [idempotencyMiddleware, if_neg hke, if_neg hk, invalidKeyOut] at hr
          exact Or.inl hr

/-- Witness for C7 at concrete inputs: the record inserted by a first 201
call has the response body, creation time, TTL and key required. -/
theorem guard_record_lifecycle_witness :
    (idempotencyMiddleware 0 (some "11111111-1111-4111-8111-111111111111")
      (201, RespB.payload "expense") ([] : List (IdempotencyRecord String))).opCalled = true ∧
    (200 ≤ (201, RespB.payload "expense").1 ∧ (201, RespB.payload "expense").1 < 300) ∧
    ({ key := "11111111-1111-4111-8111-111111111111", response := RespB.payload "expense",
       createdAt := 0, expiresAt := ttlMs } : IdempotencyRecord String).response =
      (201, RespB.payload "expense").2 ∧
    ({ key := "11111111-1111-4111-8111-111111111111", response := RespB.payload "expense",
       createdAt := 0, expiresAt := ttlMs } : IdempotencyRecord String).createdAt = 0 ∧
    ({ key := "11111111-1111-4111-8111-111111111111", response := RespB.payload "expense",
       createdAt := 0, expiresAt := ttlMs } : IdempotencyRecord String).expiresAt =
      ({ key := "11111111-1111-4111-8111-111111111111", response := RespB.payload "expense",
         createdAt := 0, expiresAt := ttlMs } : IdempotencyRecord String).createdAt + ttlMs ∧
    some "11111111-1111-4111-8111-111111111111" =
      some ({ key := "11111111-1111-4111-8111-111111111111",
              response := RespB.payload "expense",
              createdAt := 0, expiresAt := ttlMs } : IdempotencyRecord String).key :=
  (guard_record_lifecycle 0 (some "11111111-1111-4111-8111-111111111111")
      (201, RespB.payload "expense") []).1
    { key := "11111111-1111-4111-8111-111111111111", response := RespB.payload "expense",
      createdAt := 0, expiresAt := ttlMs }
    (by decide)

/-! Money codec (`money.util.ts`) and validation middleware
(`validation.middleware.ts`).  Amount strings are parsed to exact cents;
see the header note for why the `parseFloat` comparisons of the source
coincide with exact cent comparisons on format-valid strings. -/

/-- Decimal digit character. -/
def isDigitC (c : Char) : Bool := ('0' ≤ c) && (c ≤ '9')

/-- Whitespace as removed by JavaScript `trim` (common ASCII subset; the
strings of interest contain none). -/
def isWsC (c : Char) : Bool := (c == ' ') || (c == '\t') || (c == '\n') || (c == '\r')

/-- Numeric value of a digit character. -/
def digitVal (c : Char) : Nat := c.toNat - 48

/-- Value of a big-endian digit string. -/
def digitsVal (cs : List Char) : Nat := cs.foldl (fun a c => 10 * a + digitVal c) 0

/-- Model of the amount regex `^\d+(\.\d{1,2})?$`: one or more digits, then
optionally a dot and one or two digits. -/
def amountFormatOk (cs : List Char) : Bool :=
  match splitOnC '.' cs with
  | [ip] => (!ip.isEmpty) && ip.all isDigitC
  | [ip, fp] =>
    (!ip.isEmpty) && ip.all isDigitC && (!fp.isEmpty) &&
      (decide (fp.length ≤ 2)) && fp.all isDigitC
  | _ => false

/-- Exact cent value of a format-valid amount string (0 on junk, which the
callers never reach). -/
def centsOf (cs : List Char) : Nat :=
  match splitOnC '.' cs with
  | [ip] => digitsVal ip * 100
  | [ip, fp] => digitsVal ip * 100 + digitsVal fp * (if fp.length = 1 then 10 else 1)
  | _ => 0

/-- Model of `validateAmount`: `none` means valid, `some e` is the error
string.  Branch order follows the source: empty or whitespace-only, then
the regex, then `parseFloat(amount) <= 0` (on format-valid strings exactly
the zero value; `NaN` is impossible), then the structural ceiling
`parseFloat(amount) > 9999999999.99` (999999999999 cents). -/
def validateAmount (s : String) : Option String :=
  if s.data.all isWsC then some "Amount is required"
  else if !amountFormatOk s.data then
    some "Amount must be a positive number with maximum 2 decimal places (e.g., 123.45)"
  else if centsOf s.data = 0 then some "Amount must be greater than 0"
  else if centsOf s.data > 999999999999 then some "Amount is too large"
  else none

/-- Model of `parseAmount`: `null` when invalid, otherwise the numeric
value of the string, kept as exact cents. -/
def parseAmount (s : String) : Option Nat :=
  match validateAmount s with
  | some _ => none
  | none => some (centsOf s.data)

/-- Digit character of a digit value. -/
def digitChar (d : Nat) : Char := Char.ofNat (48 + d)

/-- Fuel-driven decimal rendering of a natural number (big-endian, no
leading zeros; empty on zero). -/
def natReprAux : Nat → Nat → List Char
  | 0, _ => []
  | fuel + 1, n => if n = 0 then [] else natReprAux fuel (n / 10) ++ [digitChar (n % 10)]

/-- Decimal rendering of a natural number. -/
def natReprL (n : Nat) : List Char := if n = 0 then ['0'] else natReprAux (n + 1) n

/-- Two-digit rendering of a fraction value below 100. -/
def pad2L (f : Nat) : List Char := if f < 10 then ['0', digitChar f] else natReprL f

/-- Model of `num.toFixed(2)` on an exact cent value: integer part, dot,
two fraction digits. -/
def toFixed2 (c : Nat) : List Char := natReprL (c / 100) ++ '.' :: pad2L (c % 100)

/-- Model of `formatAmount`: the currency prefix followed by the
two-decimal rendering, exactly the template string of the source.  The
committed literal on line 58 of `money.util.ts` is the three-character
sequence `â`, `‚`, `¹` (U+00E2, U+201A, U+00B9 -- a UTF-8 encoded
rupee sign re-decoded as Latin-1), not the rupee sign itself, so the
model prefixes exactly those three characters. -/
def formatAmount (c : Nat) : String := ⟨'â' :: '‚' :: '¹' :: toFixed2 c⟩

/-- Canonical two-decimal string of a cent value (what `toFixed(2)`
produces, without the currency prefix). -/
def canonCents (c : Nat) : String := ⟨toFixed2 c⟩

/-- JSON-ish value for request body fields. -/
inductive JVal where
  | jstr (s : String)
  | jnum (n : Int)
  | jbool (b : Bool)
  | jnull
deriving DecidableEq

/-- JavaScript falsiness of an optional field (`undefined`, `null`, the
empty string, `0` and `false` are falsy). -/
def isFalsy : Option JVal → Bool
  | none => true
  | some JVal.jnull => true
  | some (JVal.jstr s) => s == ""
  | some (JVal.jnum n) => n == 0
  | some (JVal.jbool b) => !b

/-- JavaScript `trim` on a character list. -/
def trimL (cs : List Char) : List Char :=
  ((cs.dropWhile isWsC).reverse.dropWhile isWsC).reverse

/-- JavaScript `trim` on a string. -/
def trimS (s : String) : String := ⟨trimL s.data⟩

/-- Does the pattern occur at the head of the list? -/
def startsWithL : List Char → List Char → Bool
  | [], _ => true
  | _ :: _, [] => false
  | p :: ps, c :: cs => (p == c) && startsWithL ps cs

/-- Does the pattern occur anywhere in the list? -/
def containsL (pat : List Char) : List Char → Bool
  | [] => startsWithL pat []
  | c :: cs => startsWithL pat (c :: cs) || containsL pat cs

/-- ASCII lowercasing (the suspicious patterns are ASCII). -/
def lowerC (c : Char) : Char :=
  if 'A' ≤ c ∧ c ≤ 'Z' then Char.ofNat (c.toNat + 32) else c

/-- Model of the case-insensitive XSS pattern test
`/<script|javascript:|onerror=|onclick=/i`. -/
def hasSuspicious (t : String) : Bool :=
  let l := t.data.map lowerC
  containsL "<script".data l || containsL "javascript:".data l ||
    containsL "onerror=".data l || containsL "onclick=".data l

/-- The category whitelist of the validation middleware. -/
def allowedCategories : List String :=
  ["Food", "Transport", "Entertainment", "Utilities", "Healthcare", "Shopping", "Other"]

/-- Errors pushed for the `amount` field (validation middleware lines
52-68): required, string type, `validateAmount`, then the business ceiling
`parseFloat(amount) > 10000000` (1000000000 cents). -/
def amountErrors (v : Option JVal) : List String :=
  match v with
  | none => ["Amount is required"]
  | some JVal.jnull => ["Amount is required"]
  | some (JVal.jstr s) =>
    match validateAmount s with
    | some e => [e]
    | none =>
      if centsOf s.data > 1000000000 then ["Amount cannot exceed ₹10,000,000"] else []
  | some _ => ["Amount must be a string for precision"]

/-- Errors pushed for the `category` field. -/
def categoryErrors (v : Option JVal) : List String :=
  if isFalsy v then ["Category is required"]
  else
    match v with
    | some (JVal.jstr s) =>
      if trimS s = "" then ["Category cannot be empty"]
      else if allowedCategories.contains (trimS s) then []
      else ["Category must be one of: " ++ String.intercalate ", " allowedCategories]
    | _ => ["Category must be a string"]

/-- Errors pushed for the `description` field; the length chain is an
`else if` ladder while the XSS check is an independent `if`. -/
def descriptionErrors (v : Option JVal) : List String :=
  if isFalsy v then ["Description is required"]
  else
    match v with
    | some (JVal.jstr s) =>
      (if trimS s = "" then ["Description cannot be empty"]
       else if (trimS s).data.length < 3 then ["Description must be at least 3 characters"]
       else if (trimS s).data.length > 500 then ["Description must be 500 characters or less"]
       else []) ++
      (if hasSuspicious (trimS s) then ["Description contains invalid characters"] else [])
    | _ => ["Description must be a string"]

/-- Calendar date triple. -/
structure YMD where
  y : Nat
  m : Nat
  d : Nat
deriving DecidableEq

/-- Strict calendar order on dates (day granularity; the source compares
UTC-midnight timestamps, and `parsedDate >= tomorrow` is `today < parsed`
at this granularity). -/
def ymdLt (a b : YMD) : Bool :=
  decide (a.y < b.y) ||
    (decide (a.y = b.y) && (decide (a.m < b.m) ||
      (decide (a.m = b.m) && decide (a.d < b.d))))

/-- Gregorian leap year. -/
def isLeap (y : Nat) : Bool :=
  (decide (y % 4 = 0) && decide (y % 100 ≠ 0)) || decide (y % 400 = 0)

/-- Days in a month; JavaScript rejects ISO strings whose day overflows
the month (the source comment cites 2026-02-30). -/
def daysInMonth (y m : Nat) : Nat :=
  if m = 2 then (if isLeap y then 29 else 28)
  else if m = 4 ∨ m = 6 ∨ m = 9 ∨ m = 11 then 30
  else 31

/-- Errors pushed for the `date` field: required, string type, the
`^\d{4}-\d{2}-\d{2}$` shape, calendar validity of `new Date(s+T00:00:00Z)`,
then the independent future (`>= tomorrow`) and before-2000 checks, with
`today` the ambient current date. -/
def dateErrors (today : YMD) (v : Option JVal) : List String :=
  if isFalsy v then ["Date is required"]
  else
    match v with
    | some (JVal.jstr s) =>
      match splitOnC '-' s.data with
      | [ys, ms, ds] =>
        if (decide (ys.length = 4)) && ys.all isDigitC && (decide (ms.length = 2)) &&
            ms.all isDigitC && (decide (ds.length = 2)) && ds.all isDigitC then
          if (decide (1 ≤ digitsVal ms)) && (decide (digitsVal ms ≤ 12)) &&
              (decide (1 ≤ digitsVal ds)) &&
              (decide (digitsVal ds ≤ daysInMonth (digitsVal ys) (digitsVal ms))) then
            (if ymdLt today ⟨digitsVal ys, digitsVal ms, digitsVal ds⟩ then
              ["Date cannot be in the future"] else []) ++
            (if ymdLt ⟨digitsVal ys, digitsVal ms, digitsVal ds⟩ ⟨2000, 1, 1⟩ then
              ["Date cannot be before year 2000"] else [])
          else ["Date is invalid (e.g., 2026-02-30 does not exist)"]
        else ["Date must be in YYYY-MM-DD format"]
      | _ => ["Date must be in YYYY-MM-DD format"]
    | _ => ["Date must be a string in YYYY-MM-DD format"]

/-- Outcome of the validation middleware: pass to the controller, or a
JSON rejection. -/
inductive VOut where
  | pass
  | reject (status : Nat) (error message : String) (details : List String)
deriving DecidableEq

/-- Field lookup in a request body (a JavaScript object: unique keys). -/
def getField (b : List (String × JVal)) (k : String) : Option JVal :=
  (b.find? (fun p => p.1 == k)).map Prod.snd

/-- The four allowed body fields. -/
def allowedFields : List String := ["amount", "category", "description", "date"]

/-- Keys of the body not among the allowed fields, in body order. -/
def extraFields (b : List (String × JVal)) : List String :=
  (b.map Prod.fst).filter (fun k => !allowedFields.contains k)

/-- Model of `validateCreateExpense`: a missing body is rejected outright;
otherwise the field errors are collected in source order (amount, category,
description, date, unexpected-fields) and a nonempty list yields a 400
rejection carrying all of them as `details`. -/
def validateCreateExpense (today : YMD) (body? : Option (List (String × JVal))) : VOut :=
  match body? with
  | none => VOut.reject 400 "Validation Error" "Request body is required" []
  | some b =>
    let errors :=
      amountErrors (getField b "amount") ++
      categoryErrors (getField b "category") ++
      descriptionErrors (getField b "description") ++
      dateErrors today (getField b "date") ++
      (if extraFields b = [] then []
       else ["Unexpected fields: " ++ String.intercalate ", " (extraFields b)])
    if errors = [] then VOut.pass
    else VOut.reject 400 "Validation Error" "Invalid request data" errors

/-- C4: on the boundary inputs, `validateAmount` plus the business ceiling
reject `0.00` (not positive), `-1.00` and `1.234` (the shared format
reason), and `10000001` (business ceiling; the looser structural ceiling
accepts it, so the tighter bound governs), while `0.01` and `10000000.00`
are accepted; the three rejection reasons are pairwise distinct. -/
theorem amount_rejection_boundary :
    amountErrors (some (JVal.jstr "0.00")) = ["Amount must be greater than 0"] ∧
    amountErrors (some (JVal.jstr "-1.00")) =
      ["Amount must be a positive number with maximum 2 decimal places (e.g., 123.45)"] ∧
    amountErrors (some (JVal.jstr "1.234")) =
      ["Amount must be a positive number with maximum 2 decimal places (e.g., 123.45)"] ∧
    amountErrors (some (JVal.jstr "10000001")) = ["Amount cannot exceed ₹10,000,000"] ∧
    validateAmount "10000001" = none ∧
    amountErrors (some (JVal.jstr "0.01")) = [] ∧
    amountErrors (some (JVal.jstr "10000000.00")) = [] ∧
    ("Amount must be greater than 0" ≠
      "Amount must be a positive number with maximum 2 decimal places (e.g., 123.45)") ∧
    ("Amount must be greater than 0" ≠ "Amount cannot exceed ₹10,000,000") ∧
    ("Amount must be a positive number with maximum 2 decimal places (e.g., 123.45)" ≠
      "Amount cannot exceed ₹10,000,000") := by
  decide

/-- C10: any body with a key outside the four allowed fields is rejected
with a 400 validation error whose details include the unexpected-fields
message listing those keys, whatever the other fields contain. -/
theorem unexpected_fields_rejected (today : YMD) (b : List (String × JVal))
    (h : extraFields b ≠ []) :
    ∃ errs, validateCreateExpense today (some b) =
        VOut.reject 400 "Validation Error" "Invalid request data" errs ∧
      ("Unexpected fields: " ++ String.intercalate ", " (extraFields b)) ∈ errs := by
  have hmem : ("Unexpected fields: " ++ String.intercalate ", " (extraFields b)) ∈
      amountErrors (getField b "amount") ++ categoryErrors (getField b "category") ++
      descriptionErrors (getField b "description") ++ dateErrors today (getField b "date") ++
      (if extraFields b = [] then []
       else ["Unexpected fields: " ++ String.intercalate ", " (extraFields b)]) := by
    rw [if_neg h]
    exact List.mem_append_right _ (List.mem_singleton.mpr rfl)
  have hne := List.ne_nil_of_mem hmem
  refine ⟨_, ?_, hmem⟩
  simp only [validateCreateExpense]
  rw [if_neg hne]

/-- Witness for C10: a body whose four required fields are all valid but
which carries an extra `foo` field is rejected with exactly that message. -/
theorem unexpected_fields_rejected_witness :
    ∃ errs, validateCreateExpense ⟨2026, 1, 20⟩
        (some [("amount", JVal.jstr "99.99"), ("category", JVal.jstr "Food"),
               ("description", JVal.jstr "Lunch"), ("date", JVal.jstr "2026-01-15"),
               ("foo", JVal.jstr "bar")]) =
        VOut.reject 400 "Validation Error" "Invalid request data" errs ∧
      ("Unexpected fields: " ++ String.intercalate ", "
        (extraFields [("amount", JVal.jstr "99.99"), ("category", JVal.jstr "Food"),
                      ("description", JVal.jstr "Lunch"), ("date", JVal.jstr "2026-01-15"),
                      ("foo", JVal.jstr "bar")])) ∈ errs :=
  unexpected_fields_rejected ⟨2026, 1, 20⟩
    [("amount", JVal.jstr "99.99"), ("category", JVal.jstr "Food"),
     ("description", JVal.jstr "Lunch"), ("date", JVal.jstr "2026-01-15"),
     ("foo", JVal.jstr "bar")] (by decide)

/-! Round-trip lemmas for the money codec. -/

theorem digitChar_facts {d : Nat} (h : d < 10) :
    digitVal (digitChar d) = d ∧ isDigitC (digitChar d) = true ∧
    digitChar d ≠ '.' ∧ isWsC (digitChar d) = false := by
  interval_cases d <;> exact ⟨rfl, rfl, by decide, rfl⟩

theorem digitsVal_concat (xs : List Char) (c : Char) :
    digitsVal (xs ++ [c]) = 10 * digitsVal xs + digitVal c := by
  simp [digitsVal, List.foldl_append]

theorem natReprAux_zero (fuel : Nat) : natReprAux fuel 0 = [] := by
  cases fuel <;> simp [natReprAux]

theorem natReprAux_spec : ∀ fuel n, n < 10 ^ fuel →
    digitsVal (natReprAux fuel n) = n ∧
    (∀ c ∈ natReprAux fuel n, ∃ d, d < 10 ∧ c = digitChar d) := by
  intro fuel
  induction fuel with
  | zero =>
    intro n h
    have h0 : n = 0 := by simpa using h
    subst h0
    exact ⟨rfl, by intro c hc; cases hc⟩
  | succ f ih =>
    intro n h
    by_cases h0 : n = 0
    · subst h0
      simp [natReprAux, digitsVal]
    · have hdiv : n / 10 < 10 ^ f := by
        have hlt : n < 10 * 10 ^ f := by
          have hp : (10 : Nat) ^ (f + 1) = 10 * 10 ^ f := by ring
          omega
        exact Nat.div_lt_of_lt_mul hlt
      obtain ⟨ihv, ihm⟩ := ih (n / 10) hdiv
      have hmod : n % 10 < 10 := Nat.mod_lt n (by norm_num)
      constructor
      · rw [natReprAux, if_neg h0, digitsVal_concat, ihv, (digitChar_facts hmod).1]
        omega
      · rw [natReprAux, if_neg h0]
        intro c hc
        rcases List.mem_append.mp hc with h1 | h1
        · exact ihm c h1
        · exact ⟨n % 10, hmod, List.mem_singleton.mp h1⟩

theorem natReprL_spec (n : Nat) :
    digitsVal (natReprL n) = n ∧
    (∀ c ∈ natReprL n, ∃ d, d < 10 ∧ c = digitChar d) ∧
    natReprL n ≠ [] := by
  by_cases h0 : n = 0
  · subst h0
    refine ⟨rfl, ?_, by decide⟩
    intro c hc
    rw [List.mem_singleton.mp hc]
    exact ⟨0, by norm_num, by decide⟩
  · have hb : n < 10 ^ (n + 1) :=
      lt_of_lt_of_le (Nat.lt_pow_self (by norm_num) n)
        (Nat.pow_le_pow_right (by norm_num) (Nat.le_succ n))
    obtain ⟨hv, hm⟩ := natReprAux_spec (n + 1) n hb
    rw [natReprL, if_neg h0]
    refine ⟨hv, hm, ?_⟩
    rw [natReprAux, if_neg h0]
    simp

theorem natReprAux_single {fuel n : Nat} (h1 : 1 ≤ n) (h9 : n ≤ 9) (hf : 1 ≤ fuel) :
    natReprAux fuel n = [digitChar n] := by
  obtain ⟨g, rfl⟩ : ∃ g, fuel = g + 1 := ⟨fuel - 1, by omega⟩
  rw [natReprAux, if_neg (by omega)]
  have hd : n / 10 = 0 := by omega
  have hm : n % 10 = n := by omega
  rw [hd, hm, natReprAux_zero]
  rfl

theorem natReprL_two {f : Nat} (h10 : 10 ≤ f) (h99 : f ≤ 99) :
    natReprL f = [digitChar (f / 10), digitChar (f % 10)] := by
  rw [natReprL, if_neg (by omega), natReprAux, if_neg (by omega),
    natReprAux_single (by omega) (by omega) (by omega)]
  rfl

theorem pad2L_spec {f : Nat} (h : f < 100) :
    digitsVal (pad2L f) = f ∧ (∀ c ∈ pad2L f, ∃ d, d < 10 ∧ c = digitChar d) ∧
    (pad2L f).length = 2 := by
  by_cases h10 : f < 10
  · rw [pad2L, if_pos h10]
    refine ⟨?_, ?_, rfl⟩
    · have hstep : digitsVal ['0', digitChar f] =
          10 * (10 * 0 + digitVal '0') + digitVal (digitChar f) := rfl
      rw [hstep, (digitChar_facts h10).1]
      have hz : digitVal '0' = 0 := rfl
      rw [hz]
      omega
    · intro c hc
      rcases List.mem_cons.mp hc with h1 | h1
      · exact ⟨0, by norm_num, by rw [h1]; decide⟩
      · exact ⟨f, h10, List.mem_singleton.mp h1⟩
  · rw [pad2L, if_neg h10, natReprL_two (by omega) (by omega)]
    have hd : f / 10 < 10 := by omega
    have hm : f % 10 < 10 := by omega
    refine ⟨?_, ?_, rfl⟩
    · have hstep : digitsVal [digitChar (f / 10), digitChar (f % 10)] =
          10 * (10 * 0 + digitVal (digitChar (f / 10))) + digitVal (digitChar (f % 10)) := rfl
      rw [hstep, (digitChar_facts hd).1, (digitChar_facts hm).1]
      omega
    · intro c hc
      rcases List.mem_cons.mp hc with h1 | h1
      · exact ⟨f / 10, hd, h1⟩
      · exact ⟨f % 10, hm, List.mem_singleton.mp h1⟩

theorem splitOnC_no_sep {sep : Char} : ∀ {cs : List Char}, sep ∉ cs →
    splitOnC sep cs = [cs] := by
  intro cs
  induction cs with
  | nil => intro _; rfl
  | cons c cs ih =>
    intro h
    have hc : ¬ c = sep := fun hh => h (hh ▸ List.mem_cons_self c cs)
    rw [splitOnC, if_neg hc, ih (fun hm => h (List.mem_cons_of_mem c hm))]

theorem splitOnC_append {sep : Char} {l₁ : List Char} (l₂ : List Char) (h : sep ∉ l₁) :
    splitOnC sep (l₁ ++ sep :: l₂) = l₁ :: splitOnC sep l₂ := by
  induction l₁ with
  | nil =>
    rw [List.nil_append, splitOnC, if_pos rfl]
  | cons c cs ih =>
    have hc : ¬ c = sep := fun hh => h (hh ▸ List.mem_cons_self c cs)
    rw [List.cons_append, splitOnC, if_neg hc,
      ih (fun hm => h (List.mem_cons_of_mem c hm))]

theorem natReprL_no_dot (n : Nat) : '.' ∉ natReprL n := by
  intro hmem
  obtain ⟨_, hm, _⟩ := natReprL_spec n
  obtain ⟨d, hd, hceq⟩ := hm _ hmem
  exact (digitChar_facts hd).2.2.1 hceq.symm

theorem pad2L_no_dot {f : Nat} (h : f < 100) : '.' ∉ pad2L f := by
  intro hmem
  obtain ⟨_, hm, _⟩ := pad2L_spec h
  obtain ⟨d, hd, hceq⟩ := hm _ hmem
  exact (digitChar_facts hd).2.2.1 hceq.symm

theorem toFixed2_split (c : Nat) :
    splitOnC '.' (toFixed2 c) = [natReprL (c / 100), pad2L (c % 100)] := by
  show splitOnC '.' (natReprL (c / 100) ++ '.' :: pad2L (c % 100)) = _
  rw [splitOnC_append _ (natReprL_no_dot (c / 100)),
    splitOnC_no_sep (pad2L_no_dot (Nat.mod_lt c (by norm_num)))]

theorem centsOf_toFixed2 (c : Nat) : centsOf (toFixed2 c) = c := by
  obtain ⟨hAv, _, _⟩ := natReprL_spec (c / 100)
  obtain ⟨hBv, _, hBlen⟩ := pad2L_spec (Nat.mod_lt c (by norm_num) : c % 100 < 100)
  unfold centsOf
  rw [toFixed2_split]
  show digitsVal (natReprL (c / 100)) * 100 +
      digitsVal (pad2L (c % 100)) * (if (pad2L (c % 100)).length = 1 then 10 else 1) = c
  rw [hAv, hBv, hBlen, if_neg (by norm_num)]
  omega

theorem amountFormatOk_toFixed2 (c : Nat) : amountFormatOk (toFixed2 c) = true := by
  obtain ⟨_, hAm, hAne⟩ := natReprL_spec (c / 100)
  obtain ⟨_, hBm, hBlen⟩ := pad2L_spec (Nat.mod_lt c (by norm_num) : c % 100 < 100)
  have hBne : pad2L (c % 100) ≠ [] := by
    intro hB
    rw [hB] at hBlen
    cases hBlen
  unfold amountFormatOk
  rw [toFixed2_split]
  have hAd : (natReprL (c / 100)).all isDigitC = true := by
    refine List.all_eq_true.mpr ?_
    intro x hx
    obtain ⟨d, hd, hceq⟩ := hAm x hx
    rw [hceq]
    exact (digitChar_facts hd).2.1
  have hBd : (pad2L (c % 100)).all isDigitC = true := by
    refine List.all_eq_true.mpr ?_
    intro x hx
    obtain ⟨d, hd, hceq⟩ := hBm x hx
    rw [hceq]
    exact (digitChar_facts hd).2.1
  simp [hAd, hBd, hAne, hBne, hBlen]

theorem validateAmount_toFixed2 {c : Nat} (h1 : 1 ≤ c) (hle : c ≤ 999999999999) :
    validateAmount (canonCents c) = none := by
  have hws : (toFixed2 c).all isWsC = false := by
    refine List.all_eq_false.mpr ⟨'.', ?_, by decide⟩
    show ('.' : Char) ∈ natReprL (c / 100) ++ '.' :: pad2L (c % 100)
    exact List.mem_append_right _ (List.mem_cons_self _ _)
  have hdata : (canonCents c).data = toFixed2 c := rfl
  unfold validateAmount
  rw [hdata, hws, amountFormatOk_toFixed2, centsOf_toFixed2]
  rw [if_neg (by simp), if_neg (by simp), if_neg (by omega), if_neg (by omega)]

theorem parseAmount_toFixed2 {c : Nat} (h1 : 1 ≤ c) (hle : c ≤ 999999999999) :
    parseAmount (canonCents c) = some c := by
  unfold parseAmount
  rw [validateAmount_toFixed2 h1 hle]
  show some (centsOf (toFixed2 c)) = some c
  rw [centsOf_toFixed2]

theorem validateAmount_intstr {n : Nat} (h1 : 1 ≤ n) (hle : n ≤ 9999999999) :
    validateAmount ⟨natReprL n⟩ = none ∧ centsOf (natReprL n) = n * 100 := by
  obtain ⟨hv, hm, hne⟩ := natReprL_spec n
  have hsplit : splitOnC '.' (natReprL n) = [natReprL n] :=
    splitOnC_no_sep (natReprL_no_dot n)
  have hcents : centsOf (natReprL n) = n * 100 := by
    unfold centsOf
    rw [hsplit]
    show digitsVal (natReprL n) * 100 = n * 100
    rw [hv]
  have hfmt : amountFormatOk (natReprL n) = true := by
    unfold amountFormatOk
    rw [hsplit]
    have hd : (natReprL n).all isDigitC = true := by
      refine List.all_eq_true.mpr ?_
      intro x hx
      obtain ⟨d, hdlt, hceq⟩ := hm x hx
      rw [hceq]
      exact (digitChar_facts hdlt).2.1
    simp [hd, hne]
  have hws : (natReprL n).all isWsC = false := by
    obtain ⟨c0, hc0⟩ := List.exists_mem_of_ne_nil _ hne
    obtain ⟨d, hdlt, hceq⟩ := hm c0 hc0
    refine List.all_eq_false.mpr ⟨c0, hc0, ?_⟩
    rw [hceq]
    simp [(digitChar_facts hdlt).2.2.2]
  refine ⟨?_, hcents⟩
  have hdata : (⟨natReprL n⟩ : String).data = natReprL n := rfl
  unfold validateAmount
  rw [hdata, hws, hfmt, hcents]
  rw [if_neg (by simp), if_neg (by simp), if_neg (by omega), if_neg (by omega)]

theorem parseAmount_intstr {n : Nat} (h1 : 1 ≤ n) (hle : n ≤ 9999999999) :
    parseAmount ⟨natReprL n⟩ = some (n * 100) := by
  obtain ⟨hval, hcents⟩ := validateAmount_intstr h1 hle
  unfold parseAmount
  rw [hval]
  show some (centsOf (natReprL n)) = _
  rw [hcents]

theorem parseAmount_onefrac {n d : Nat} (hd : d < 10) (hle : n ≤ 9999999999)
    (hpos : 1 ≤ n * 100 + d * 10) :
    parseAmount ⟨natReprL n ++ ['.', digitChar d]⟩ = some (n * 100 + d * 10) := by
  obtain ⟨hv, hm, hne⟩ := natReprL_spec n
  have hfdot : '.' ∉ [digitChar d] := by
    intro hmem
    exact (digitChar_facts hd).2.2.1 (List.mem_singleton.mp hmem).symm
  have hsplit : splitOnC '.' (natReprL n ++ ['.', digitChar d]) =
      [natReprL n, [digitChar d]] := by
    show splitOnC '.' (natReprL n ++ '.' :: [digitChar d]) = _
    rw [splitOnC_append _ (natReprL_no_dot n), splitOnC_no_sep hfdot]
  have hone : digitsVal [digitChar d] = d := by
    have hstep : digitsVal [digitChar d] = 10 * 0 + digitVal (digitChar d) := rfl
    rw [hstep, (digitChar_facts hd).1]
    omega
  have hcents : centsOf (natReprL n ++ ['.', digitChar d]) = n * 100 + d * 10 := by
    unfold centsOf
    rw [hsplit]
    show digitsVal (natReprL n) * 100 +
        digitsVal [digitChar d] * (if ([digitChar d] : List Char).length = 1 then 10 else 1) =
        n * 100 + d * 10
    rw [hv, hone]
    simp
  have hfmt : amountFormatOk (natReprL n ++ ['.', digitChar d]) = true := by
    unfold amountFormatOk
    rw [hsplit]
    have hAd : (natReprL n).all isDigitC = true := by
      refine List.all_eq_true.mpr ?_
      intro x hx
      obtain ⟨e, he, hceq⟩ := hm x hx
      rw [hceq]
      exact (digitChar_facts he).2.1
    simp [hAd, hne, (digitChar_facts hd).2.1]
  have hws : (natReprL n ++ ['.', digitChar d]).all isWsC = false := by
    refine List.all_eq_false.mpr ⟨'.', ?_, by decide⟩
    exact List.mem_append_right _ (List.mem_cons_self _ _)
  have hval : validateAmount ⟨natReprL n ++ ['.', digitChar d]⟩ = none := by
    have hdata : (⟨natReprL n ++ ['.', digitChar d]⟩ : String).data =
        natReprL n ++ ['.', digitChar d] := rfl
    unfold validateAmount
    rw [hdata, hws, hfmt, hcents]
    rw [if_neg (by simp), if_neg (by simp), if_neg (by omega), if_neg (by omega)]
  unfold parseAmount
  rw [hval]
  show some (centsOf (natReprL n ++ ['.', digitChar d])) = _
  rw [hcents]

theorem canonCents_int (n : Nat) :
    canonCents (n * 100) = ⟨natReprL n ++ ['.', '0', '0']⟩ := by
  have hdiv : n * 100 / 100 = n := by omega
  have hmod : n * 100 % 100 = 0 := by omega
  unfold canonCents toFixed2
  rw [hdiv, hmod]
  have hp : pad2L 0 = ['0', '0'] := by decide
  rw [hp]

theorem canonCents_onefrac {n d : Nat} (hd : d < 10) :
    canonCents (n * 100 + d * 10) = ⟨natReprL n ++ ['.', digitChar d, '0']⟩ := by
  have hdiv : (n * 100 + d * 10) / 100 = n := by omega
  have hmod : (n * 100 + d * 10) % 100 = d * 10 := by omega
  unfold canonCents toFixed2
  rw [hdiv, hmod]
  have hp : pad2L (d * 10) = [digitChar d, '0'] := by
    by_cases hd0 : d = 0
    · subst hd0
      decide
    · have h10 : 10 ≤ d * 10 := by omega
      have h99 : d * 10 ≤ 99 := by omega
      rw [pad2L, if_neg (by omega), natReprL_two h10 h99]
      have ha : d * 10 / 10 = d := by omega
      have hb : d * 10 % 10 = 0 := by omega
      rw [ha, hb]
      rfl
  rw [hp]

theorem formatAmount_eq (c : Nat) : formatAmount c = "â‚¹" ++ canonCents c := rfl

/-- C5 counterexample: the display of a parsed valid two-decimal string is
not the string itself, for two reasons.  First, `formatAmount` embeds a
currency prefix at this layer (the committed mojibake rendering of the
rupee sign), so the round trip of `"5.00"` yields `"â‚¹5.00"`, not
`"5.00"`.  Second, the round trip also normalizes superfluous leading
zeros: `"05.00"` matches the accepted format `^\d+(\.\d{1,2})?$` and has
exactly two fractional digits, yet its round trip is `"â‚¹5.00"` and
differs from the prefix followed by `"05.00"` itself. -/
theorem money_roundtrip_counterexample :
    ((parseAmount "5.00").map formatAmount = some "â‚¹5.00" ∧
      (parseAmount "5.00").map formatAmount ≠ some "5.00") ∧
    ((parseAmount "05.00").map formatAmount = some "â‚¹5.00" ∧
      (parseAmount "05.00").map formatAmount ≠ some ("â‚¹" ++ "05.00")) := by
  decide

/-- C5 amended: for every positive in-range exact cent value, the
canonical two-decimal string parses back to exactly that value and its
display is the committed currency prefix followed by the string itself;
strings with no fraction part or one fraction digit parse to the padded
value and display as the prefix followed by the two-digit padded form
(`"5"` renders as `"â‚¹5.00"`, `"1.5"` as `"â‚¹1.50"`). -/
theorem money_roundtrip_amended :
    (∀ c : Nat, 1 ≤ c → c ≤ 999999999999 →
      parseAmount (canonCents c) = some c ∧
      (parseAmount (canonCents c)).map formatAmount = some ("â‚¹" ++ canonCents c)) ∧
    (∀ n : Nat, 1 ≤ n → n ≤ 9999999999 →
      (parseAmount ⟨natReprL n⟩).map formatAmount = some ("â‚¹" ++ canonCents (n * 100)) ∧
      canonCents (n * 100) = (⟨natReprL n ++ ['.', '0', '0']⟩ : String)) ∧
    (∀ n d : Nat, d < 10 → n ≤ 9999999999 → 1 ≤ n * 100 + d * 10 →
      (parseAmount ⟨natReprL n ++ ['.', digitChar d]⟩).map formatAmount =
        some ("â‚¹" ++ canonCents (n * 100 + d * 10)) ∧
      canonCents (n * 100 + d * 10) =
        (⟨natReprL n ++ ['.', digitChar d, '0']⟩ : String)) := by
  refine ⟨?_, ?_, ?_⟩
  · intro c h1 hle
    refine ⟨parseAmount_toFixed2 h1 hle, ?_⟩
    rw [parseAmount_toFixed2 h1 hle]
    show some (formatAmount c) = _
    rw [formatAmount_eq]
  · intro n h1 hle
    refine ⟨?_, canonCents_int n⟩
    rw [parseAmount_intstr h1 hle]
    show some (formatAmount (n * 100)) = _
    rw [formatAmount_eq]
  · intro n d hd hle hpos
    refine ⟨?_, canonCents_onefrac hd⟩
    rw [parseAmount_onefrac hd hle hpos]
    show some (formatAmount (n * 100 + d * 10)) = _
    rw [formatAmount_eq]

/-- Witness for the amended C5 at concrete inputs: cents 500 round-trips
through `"5.00"`, and the integer string `"5"` displays padded as
`"â‚¹5.00"`. -/
theorem money_roundtrip_amended_witness :
    (parseAmount (canonCents 500) = some 500 ∧
      (parseAmount (canonCents 500)).map formatAmount = some ("â‚¹" ++ canonCents 500)) ∧
    ((parseAmount ⟨natReprL 5⟩).map formatAmount = some ("â‚¹" ++ canonCents (5 * 100)) ∧
      canonCents (5 * 100) = (⟨natReprL 5 ++ ['.', '0', '0']⟩ : String)) :=
  ⟨money_roundtrip_amended.1 500 (by norm_num) (by norm_num),
   money_roundtrip_amended.2.1 5 (by norm_num) (by norm_num)⟩

/-! Frontend idempotency key generator (`idempotency.util.ts`). -/

/-- The UUID v4 template the generator rewrites. -/
def uuidTemplate : String := "xxxxxxxx-xxxx-4xxx-yxxx-xxxxxxxxxxxx"

/-- Model of `v.toString(16)` for a nibble: digits then lowercase letters. -/
def hexChar (d : Nat) : Char :=
  if d < 10 then Char.ofNat (48 + d) else Char.ofNat (87 + d)

/-- Model of the `replace(/[xy]/g, ...)` callback run left to right: each
`x` consumes a random nibble `r` and becomes its hex digit, each `y`
consumes one and becomes the hex digit of `(r & 0x3) | 0x8`, and every
other character is kept.  `rnd i` is the i-th value of
`(Math.random() * 16) | 0`, always in `0..15`. -/
def genChars (rnd : Nat → Fin 16) : List Char → Nat → List Char
  | [], _ => []
  | c :: cs, i =>
    if c = 'x' then hexChar (rnd i) :: genChars rnd cs (i + 1)
    else if c = 'y' then hexChar (((rnd i).val &&& 3) ||| 8) :: genChars rnd cs (i + 1)
    else c :: genChars rnd cs i

/-- Model of `generateIdempotencyKey`. -/
def generateIdempotencyKey (rnd : Nat → Fin 16) : String :=
  ⟨genChars rnd uuidTemplate.data 0⟩

theorem hexChar_hexdigit : ∀ r : Fin 16, isHexDigit (hexChar r.val) = true := by decide

theorem hexChar_ne_dash : ∀ r : Fin 16, hexChar r.val ≠ '-' := by decide

theorem hexCharY_hexdigit : ∀ r : Fin 16,
    isHexDigit (hexChar ((r.val &&& 3) ||| 8)) = true := by decide

theorem hexCharY_ne_dash : ∀ r : Fin 16, hexChar ((r.val &&& 3) ||| 8) ≠ '-' := by decide

theorem genChars_split (rnd : Nat → Fin 16) :
    splitOnC '-' (genChars rnd uuidTemplate.data 0) =
      [[hexChar (rnd 0).val, hexChar (rnd 1).val, hexChar (rnd 2).val, hexChar (rnd 3).val,
        hexChar (rnd 4).val, hexChar (rnd 5).val, hexChar (rnd 6).val, hexChar (rnd 7).val],
       [hexChar (rnd 8).val, hexChar (rnd 9).val, hexChar (rnd 10).val, hexChar (rnd 11).val],
       ['4', hexChar (rnd 12).val, hexChar (rnd 13).val, hexChar (rnd 14).val],
       [hexChar (((rnd 15).val &&& 3) ||| 8), hexChar (rnd 16).val, hexChar (rnd 17).val,
        hexChar (rnd 18).val],
       [hexChar (rnd 19).val, hexChar (rnd 20).val, hexChar (rnd 21).val, hexChar (rnd 22).val,
        hexChar (rnd 23).val, hexChar (rnd 24).val, hexChar (rnd 25).val, hexChar (rnd 26).val,
        hexChar (rnd 27).val, hexChar (rnd 28).val, hexChar (rnd 29).val,
        hexChar (rnd 30).val]] := by
  have hnd : ∀ i, '-' ≠ hexChar (rnd i).val := fun i => (hexChar_ne_dash (rnd i)).symm
  have hy : '-' ≠ hexChar (((rnd 15).val &&& 3) ||| 8) := (hexCharY_ne_dash (rnd 15)).symm
  show splitOnC '-'
      ([hexChar (rnd 0).val, hexChar (rnd 1).val, hexChar (rnd 2).val, hexChar (rnd 3).val,
        hexChar (rnd 4).val, hexChar (rnd 5).val, hexChar (rnd 6).val, hexChar (rnd 7).val] ++
       '-' ::
       ([hexChar (rnd 8).val, hexChar (rnd 9).val, hexChar (rnd 10).val,
         hexChar (rnd 11).val] ++
        '-' ::
        (['4', hexChar (rnd 12).val, hexChar (rnd 13).val, hexChar (rnd 14).val] ++
         '-' ::
         ([hexChar (((rnd 15).val &&& 3) ||| 8), hexChar (rnd 16).val, hexChar (rnd 17).val,
           hexChar (rnd 18).val] ++
          '-' ::
          [hexChar (rnd 19).val, hexChar (rnd 20).val, hexChar (rnd 21).val,
           hexChar (rnd 22).val, hexChar (rnd 23).val, hexChar (rnd 24).val,
           hexChar (rnd 25).val, hexChar (rnd 26).val, hexChar (rnd 27).val,
           hexChar (rnd 28).val, hexChar (rnd 29).val, hexChar (rnd 30).val])))) = _
  rw [splitOnC_append _ (by simp [hnd 0, hnd 1, hnd 2, hnd 3, hnd 4, hnd 5, hnd 6, hnd 7]),
    splitOnC_append _ (by simp [hnd 8, hnd 9, hnd 10, hnd 11]),
    splitOnC_append _ (by simp [hnd 12, hnd 13, hnd 14]),
    splitOnC_append _ (by simp [hy, hnd 16, hnd 17, hnd 18]),
    splitOnC_no_sep (by
      simp [hnd 19, hnd 20, hnd 21, hnd 22, hnd 23, hnd 24, hnd 25, hnd 26, hnd 27,
        hnd 28, hnd 29, hnd 30])]

/-- C9: every string the frontend generator can produce passes the guard's
UUID regex, so a generated key is never rejected as malformed. -/
theorem generated_key_always_valid (rnd : Nat → Fin 16) :
    isUuid (generateIdempotencyKey rnd) = true := by
  have hdata : (generateIdempotencyKey rnd).data = genChars rnd uuidTemplate.data 0 := rfl
  unfold isUuid
  rw [hdata, genChars_split]
  simp [hexChar_hexdigit (rnd 0), hexChar_hexdigit (rnd 1), hexChar_hexdigit (rnd 2),
    hexChar_hexdigit (rnd 3), hexChar_hexdigit (rnd 4), hexChar_hexdigit (rnd 5),
    hexChar_hexdigit (rnd 6), hexChar_hexdigit (rnd 7), hexChar_hexdigit (rnd 8),
    hexChar_hexdigit (rnd 9), hexChar_hexdigit (rnd 10), hexChar_hexdigit (rnd 11),
    hexChar_hexdigit (rnd 12), hexChar_hexdigit (rnd 13), hexChar_hexdigit (rnd 14),
    hexCharY_hexdigit (rnd 15), hexChar_hexdigit (rnd 16), hexChar_hexdigit (rnd 17),
    hexChar_hexdigit (rnd 18), hexChar_hexdigit (rnd 19), hexChar_hexdigit (rnd 20),
    hexChar_hexdigit (rnd 21), hexChar_hexdigit (rnd 22), hexChar_hexdigit (rnd 23),
    hexChar_hexdigit (rnd 24), hexChar_hexdigit (rnd 25), hexChar_hexdigit (rnd 26),
    hexChar_hexdigit (rnd 27), hexChar_hexdigit (rnd 28), hexChar_hexdigit (rnd 29),
    hexChar_hexdigit (rnd 30)]
  decide
